import Mathlib

/-!
Verification of the sf2convert SoundFont converter (Source/sfont.h,
Source/sfont.cpp, Source/sf2convert.cpp) against its natural-language
specification.  The C++ code is shallowly embedded: unsigned 32-bit
fields (`uint`) are `Nat` values reduced modulo 2^32 where the code
stores into them, 16-bit words modulo 2^16, and fallible reader code
returns `Except String`.
-/

namespace SF2

/-- Target/source file formats, from `enum FileType` in sfont.h. -/
inductive FileType where
  | SF2Format
  | SF3Format
  | SF4Format
deriving DecidableEq

/-- Per-sample compression kinds, from `enum SampleCompression` in sfont.h. -/
inductive SampleCompression where
  | Raw
  | Vorbis
  | Flac
deriving DecidableEq

/-- `class SampleMeta` (sfont.h): optional pre-compression verification data. -/
structure SampleMeta where
  name : String
  samples : Nat
  loopstart : Nat
  loopend : Nat
deriving DecidableEq

/-- `class Sample` (sfont.h).  `sampleData` is `some pcm` when the PCM buffer
is loaded (its length is `sampleDataSize`), `none` when the pointer is null.
`end` is a reserved word in Lean, hence `end_`. -/
structure Sample where
  name : String
  start : Nat
  end_ : Nat
  loopstart : Nat
  loopend : Nat
  samplerate : Nat
  origpitch : Nat
  pitchadj : Int
  sampleLink : Nat
  sampletype : Nat
  sampleData : Option (List Int)
  meta : Option SampleMeta
deriving DecidableEq

/-- The `Sample()` constructor (sfont.cpp lines 43-61): all fields zero except
`sampletype`, which is initialized to `SampleType::Mono = 1`. -/
def emptySample : Sample :=
  { name := "", start := 0, end_ := 0, loopstart := 0, loopend := 0,
    samplerate := 0, origpitch := 0, pitchadj := 0, sampleLink := 0,
    sampletype := 1, sampleData := none, meta := none }

/-- Unsigned 32-bit subtraction `a - b` as performed on the `uint` fields. -/
def sub32 (a b : Nat) : Nat :=
  (a + (4294967296 - b % 4294967296)) % 4294967296

/-- `Sample::numSamples` (sfont.cpp lines 114-120): the loaded PCM length if
sample data is present, otherwise `end - start` (unsigned). -/
def numSamples (s : Sample) : Nat :=
  match s.sampleData with
  | some d => d.length
  | none => sub32 s.end_ s.start

/-- `Sample::checkMeta` (sfont.cpp lines 140-147). -/
def checkMeta (s : Sample) : Bool :=
  match s.meta with
  | none => true
  | some m =>
      decide (m.samples = numSamples s) &&
      decide (sub32 m.loopend m.loopstart = sub32 s.loopend s.loopstart)

/-- The 32-bit value of `~((int)(TypeVorbis + TypeFlac))`, i.e. the complement
of 48 = 16 + 32 in a 32-bit int: 0xFFFFFFCF. -/
def compressionClearMask : Nat := 4294967247

/-- `Sample::setCompressionType` (sfont.cpp lines 90-106): clear both
compression bits, then set the one selected by `c`. -/
def setCompressionType (c : SampleCompression) (sampletype : Nat) : Nat :=
  match c with
  | .Vorbis => (sampletype &&& compressionClearMask) ||| 16
  | .Flac => (sampletype &&& compressionClearMask) ||| 32
  | .Raw => sampletype &&& compressionClearMask

/-- `Sample::getCompressionType` (sfont.cpp lines 83-88). -/
def getCompressionType (sampletype : Nat) : SampleCompression :=
  if sampletype &&& 16 > 0 then .Vorbis
  else if sampletype &&& 32 > 0 then .Flac
  else .Raw

/-- `struct sfVersionTag` (sfont.h). -/
structure sfVersionTag where
  major : Nat
  minor : Nat
deriving DecidableEq

/-- The format classification performed by `SoundFont::readVersion`
(sfont.cpp lines 379-381): SF2 unless major is 3 (SF3) or 4 (SF4). -/
def readVersionFormat (major : Nat) : FileType :=
  let f := FileType.SF2Format
  let f := if major = 3 then FileType.SF3Format else f
  let f := if major = 4 then FileType.SF4Format else f
  f

/-- The version record emitted by `SoundFont::writeIfil` (sfont.cpp lines
908-920): major is set to 3 for an SF3 target and 4 for an SF4 target;
for an SF2 target the input major is left as-is. -/
def writeIfil (fmtOut : FileType) (v : sfVersionTag) : sfVersionTag :=
  let v := if fmtOut = FileType.SF3Format then { v with major := 3 } else v
  let v := if fmtOut = FileType.SF4Format then { v with major := 4 } else v
  v

/-- The four data bytes of the `ifil` chunk body written by `writeIfil`:
`data[0] = major`, `data[1] = major >> 8`, `data[2] = minor`,
`data[3] = minor >> 8`. -/
def writeIfilBytes (fmtOut : FileType) (v : sfVersionTag) : List Nat :=
  let w := writeIfil fmtOut v
  [w.major % 256, w.major / 256 % 256, w.minor % 256, w.minor / 256 % 256]

/-- `SoundFont::writeStringSection` (sfont.cpp lines 890-902) for a payload of
`s` bytes (the string bytes without the terminating NUL): result is the
declared u32 length and the body bytes written after it. -/
def writeStringSection (s : List Nat) : Nat × List Nat :=
  let nn := s.length + 1
  let n := (nn + 1) / 2 * 2
  (n, (s ++ [0]) ++ (if n - nn > 0 then [0] else []))

/-- The leaf-chunk dispatch of `SoundFont::readSection` (sfont.cpp lines
409-483): the listed FourCCs are handled; everything else — including
`irom` and `iver`, whose case labels fall through to `default` — skips the
body and then throws `"unknown fourcc ..."`. -/
def readSection (fourcc : String) : Except String Unit :=
  match fourcc with
  | "ifil" | "INAM" | "isng" | "IPRD" | "IENG" | "ISFT" | "ICRD" | "ICMT"
  | "ICOP" | "smpl" | "phdr" | "pbag" | "pmod" | "pgen" | "inst" | "ibag"
  | "imod" | "igen" | "shdr" | "shdX" => Except.ok ()
  | other => Except.error ("unknown fourcc " ++ other)

/-- The index-monotonicity scan of `SoundFont::readPhdr` (sfont.cpp lines
500-524) over the sequence of `presetBagNdx` words, with the accumulator
`index1` starting at 0:  `if (index2 < index1) throw(...)`. -/
def readPhdrIndices : Nat → List Nat → Except String Unit
  | _, [] => Except.ok ()
  | index1, index2 :: rest =>
      if index2 < index1 then Except.error "preset header indices not monotonic"
      else readPhdrIndices index2 rest

/-- `readPhdr` restricted to its bag-index check (initial `index1 = 0`). -/
def readPhdr (idxs : List Nat) : Except String Unit :=
  readPhdrIndices 0 idxs

/-- `SoundFont::read` catches any thrown message and returns false. -/
def readOk (r : Except String Unit) : Bool :=
  match r with
  | .ok _ => true
  | .error _ => false

/-- `main` (sf2convert.cpp lines 131-134): `if (!sf.read()) return 3;`
otherwise the program continues and returns 0. -/
def mainExitCode (ok : Bool) : Nat :=
  if ok then 0 else 3

/-- The advisory appended to `_comment` in `SoundFont::write` (sfont.cpp
line 725), including the `"\n\n"` separator written before it. -/
def lossyAdvisory : String :=
  "\n\nCAUTION: Samples in this file were decompressed from a lossy format (Ogg Vorbis). If you want to edit this file, you should get the original uncompressed SF2 file."

/-- The comment-rewriting step of `SoundFont::write` (sfont.cpp lines
722-726): append the advisory iff the input format is SF3 and the output
format differs from the input format. -/
def writeComment (fmtIn fmtOut : FileType) (comment : String) : String :=
  if fmtIn = FileType.SF3Format ∧ fmtOut ≠ fmtIn then comment ++ lossyAdvisory
  else comment

/-- `SoundFont::writeShdX` (sfont.cpp lines 1146-1166) at chunk granularity:
if any sample lacks meta the function returns before writing anything,
otherwise it emits the `shdX` chunk. -/
def writeShdXChunkIds (samples : List Sample) : List String :=
  if samples.all (fun s => s.meta.isSome) then ["shdX"] else []

/-- The pdta chunk sequence emitted by `SoundFont::write` (sfont.cpp lines
772-783): the nine standard chunks, then `writeShdX` iff the target format
is not SF2. -/
def writePdtaChunkIds (fmtOut : FileType) (samples : List Sample) : List String :=
  ["phdr", "pbag", "pmod", "pgen", "inst", "ibag", "imod", "igen", "shdr"] ++
    (if fmtOut ≠ FileType.SF2Format then writeShdXChunkIds samples else [])

/-- One 46-byte `shdr` record as serialized by `SoundFont::writeShdrEach`
(sfont.cpp lines 1128-1140): u32 fields truncated to 32 bits by
`writeDword`, byte/word fields by `writeByte`/`writeWord`. -/
structure ShdrRecord where
  name : String
  start : Nat
  end_ : Nat
  loopstart : Nat
  loopend : Nat
  samplerate : Nat
  origpitch : Nat
  pitchadj : Int
  sampleLink : Nat
  sampletype : Nat
deriving DecidableEq

/-- `SoundFont::writeShdrEach` on one sample. -/
def writeShdrEach (s : Sample) : ShdrRecord :=
  { name := s.name, start := s.start % 4294967296, end_ := s.end_ % 4294967296,
    loopstart := s.loopstart % 4294967296, loopend := s.loopend % 4294967296,
    samplerate := s.samplerate % 4294967296, origpitch := s.origpitch % 256,
    pitchadj := s.pitchadj, sampleLink := s.sampleLink % 65536,
    sampletype := s.sampletype % 65536 }

/-- `SoundFont::writeShdr` (sfont.cpp lines 1111-1122): one record per sample
in model order, then an empty `Sample` as terminator. -/
def writeShdr (samples : List Sample) : List ShdrRecord :=
  samples.map writeShdrEach ++ [writeShdrEach emptySample]

/-- `SoundFont::writeSampleDataPlain` (sfont.cpp lines 1426-1433): writes
`numSamples * sizeof(short)` bytes and returns that count. -/
def writeSampleDataPlain (s : Sample) : Nat := numSamples s * 2

/-- Bytes written into the `smpl` chunk for one sample by `writeSmpl`:
the plain PCM writer for SF2, otherwise the (external) Vorbis or FLAC
encoder, abstracted as the functions `encV` / `encF`. -/
def bytesWritten (fmt : FileType) (encV encF : Sample → Nat) (s : Sample) : Nat :=
  match fmt with
  | .SF2Format => writeSampleDataPlain s
  | .SF3Format => encV s
  | .SF4Format => encF s

/-- One iteration of the per-format loops in `SoundFont::writeSmpl`
(sfont.cpp lines 1200-1256): write the payload, set the compression type,
and rewrite `start`/`end`/`loopstart`/`loopend` in memory.  Returns the
rewritten sample and the updated `offsetFromChunk`.  Stores into the
`uint` fields reduce modulo 2^32. -/
def smplStep (fmt : FileType) (encV encF : Sample → Nat) (offset : Nat)
    (s : Sample) : Sample × Nat :=
  match fmt with
  | .SF2Format =>
      let written := writeSampleDataPlain s
      let s := { s with sampletype := setCompressionType .Raw s.sampletype }
      let s := { s with start := offset / 2 % 4294967296 }
      let offset := offset + written
      let s := { s with end_ := offset / 2 % 4294967296 }
      let s := { s with loopstart := (s.loopstart + s.start) % 4294967296,
                        loopend := (s.loopend + s.start) % 4294967296 }
      (s, offset)
  | .SF3Format =>
      let written := encV s
      let s := { s with sampletype := setCompressionType .Vorbis s.sampletype }
      let s := { s with start := offset % 4294967296 }
      let offset := offset + written
      let s := { s with end_ := offset % 4294967296 }
      (s, offset)
  | .SF4Format =>
      let written := encF s
      let s := { s with sampletype := setCompressionType .Flac s.sampletype }
      let s := { s with start := offset % 4294967296 }
      let offset := offset + written
      let s := { s with end_ := offset % 4294967296 }
      (s, offset)

/-- The sample-rewriting loop of `SoundFont::writeSmpl`, threading
`offsetFromChunk` through `smplStep` over the samples in model order and
collecting the rewritten samples. -/
def writeSmplSamples (fmt : FileType) (encV encF : Sample → Nat) :
    Nat → List Sample → List Sample
  | _, [] => []
  | offset, s :: rest =>
      (smplStep fmt encV encF offset s).1 ::
        writeSmplSamples fmt encV encF (smplStep fmt encV encF offset s).2 rest

/-- The value of `offsetFromChunk` just before sample `i` is processed:
the sum of the byte counts written for samples `0..i-1`. -/
def offsetBefore (fmt : FileType) (encV encF : Sample → Nat) :
    List Sample → Nat → Nat
  | _, 0 => 0
  | [], _ + 1 => 0
  | s :: rest, i + 1 =>
      bytesWritten fmt encV encF s + offsetBefore fmt encV encF rest i

/-- The `i`-th sample after `writeSmpl` has rewritten the model. -/
def rewrittenSample (fmt : FileType) (encV encF : Sample → Nat)
    (samples : List Sample) (i : Nat) : Sample :=
  (writeSmplSamples fmt encV encF 0 samples).getD i emptySample

/-- The `i`-th `shdr` record written after the `smpl` chunk. -/
def shdrRecordAt (fmt : FileType) (encV encF : Sample → Nat)
    (samples : List Sample) (i : Nat) : ShdrRecord :=
  (writeShdr (writeSmplSamples fmt encV encF 0 samples)).getD i
    (writeShdrEach emptySample)

/-- Concrete sample used to instantiate hypotheses of the universally
quantified theorems below. -/
def sampW : Sample :=
  { name := "W", start := 11, end_ := 99, loopstart := 7, loopend := 9,
    samplerate := 44100, origpitch := 60, pitchadj := 0, sampleLink := 0,
    sampletype := 1, sampleData := some [1, 2, 3], meta := none }

/-- Concrete encoder (byte count per sample) for instantiations. -/
def encW : Sample → Nat := fun _ => 6

/-- Concrete sample carrying meta data, for instantiations. -/
def sampM : Sample :=
  { name := "S", start := 0, end_ := 1000, loopstart := 10, loopend := 20,
    samplerate := 44100, origpitch := 60, pitchadj := 0, sampleLink := 0,
    sampletype := 1, sampleData := none,
    meta := some { name := "S", samples := 1000, loopstart := 10, loopend := 20 } }

/-!  ## Theorems -/

/-- Claim C3 (code_bug evidence).  The spec says the `ifil` major version is
forced to 2/3/4 per target format, but `writeIfil` only forces 3 and 4: with
an SF3 source (input major 3) and an SF2 target, the emitted major stays 3,
and the program's own `readVersion` would classify the expanded raw-PCM file
as SF3. -/
theorem writeIfil_sf2_keeps_input_major :
    (writeIfil FileType.SF2Format { major := 3, minor := 0 }).major = 3 ∧
    (writeIfil FileType.SF2Format { major := 3, minor := 0 }).major ≠ 2 ∧
    writeIfilBytes FileType.SF2Format { major := 3, minor := 0 } = [3, 0, 0, 0] ∧
    readVersionFormat
      (writeIfil FileType.SF2Format { major := 3, minor := 0 }).major =
      FileType.SF3Format := by
  decide

/-- Claim C4 (counterexample).  For the payload "ab" (2 bytes, so 3 bytes
including the NUL — odd), the claim says the declared u32 length stays the
unpadded value 3; the code declares the padded even value 4. -/
theorem writeStringSection_declared_length_cex :
    ¬ (writeStringSection [97, 98]).1 = 3 := by
  decide

/-- Claim C4 (amended).  For a payload whose length including the NUL is odd,
`writeStringSection` appends one extra zero pad byte, making the body even,
and the declared u32 length is the padded even value (payload length + 2),
matching the body length. -/
theorem writeStringSection_odd_padding (s : List Nat)
    (h : (s.length + 1) % 2 = 1) :
    (writeStringSection s).2 = s ++ [0, 0] ∧
    (writeStringSection s).1 = s.length + 2 ∧
    (writeStringSection s).2.length = (writeStringSection s).1 ∧
    (writeStringSection s).1 % 2 = 0 := by
  have hn : (s.length + 1 + 1) / 2 * 2 = s.length + 2 := by omega
  have h2 : writeStringSection s = (s.length + 2, s ++ [0, 0]) := by
    simp only [writeStringSection, hn]
    rw [if_pos (by omega : s.length + 2 - (s.length + 1) > 0)]
    simp
  rw [h2]
  refine ⟨rfl, rfl, by simp, by omega⟩

/-- Claim C4 witness: the amended statement at the concrete payload "ab". -/
theorem writeStringSection_odd_padding_witness :
    (writeStringSection [97, 98]).2 = [97, 98, 0, 0] ∧
    (writeStringSection [97, 98]).1 = 4 :=
  ⟨(writeStringSection_odd_padding [97, 98] (by decide)).1,
   (writeStringSection_odd_padding [97, 98] (by decide)).2.1⟩

/-- Claim C6 (code_bug evidence).  The spec says `irom`/`iver` leaf chunks
are accepted and skipped; in the code their case labels fall through to the
`default` branch, which skips the body and then throws, so `read()` fails. -/
theorem readSection_irom_iver_error :
    readSection "irom" = Except.error "unknown fourcc irom" ∧
    readSection "iver" = Except.error "unknown fourcc iver" ∧
    readOk (readSection "irom") = false ∧
    mainExitCode (readOk (readSection "irom")) = 3 := by
  refine ⟨rfl, rfl, rfl, rfl⟩

/-- Claim C8 (counterexample).  The claim says a lossy-decompression advisory
is appended whenever the source is SF3 *or SF4* and the target is SF2; for an
SF4 source and SF2 target the code leaves the comment unchanged (the guard is
`fileFormatIn == SF3Format && fileFormatOut != fileFormatIn`). -/
theorem writeComment_sf4_source_cex :
    writeComment FileType.SF4Format FileType.SF2Format "c" = "c" ∧
    ¬ writeComment FileType.SF4Format FileType.SF2Format "c" =
        "c" ++ lossyAdvisory := by
  decide

/-- Claim C8 (amended).  The advisory is appended to the comment exactly when
the source format is SF3 and the target format differs from SF3 (SF2 or SF4);
in every other source/target combination — in particular for SF4 (FLAC,
lossless) sources — the comment is written unchanged. -/
theorem writeComment_advisory_condition (fmtIn fmtOut : FileType)
    (comment : String) :
    (fmtIn = FileType.SF3Format → fmtOut ≠ FileType.SF3Format →
        writeComment fmtIn fmtOut comment = comment ++ lossyAdvisory) ∧
    (fmtIn ≠ FileType.SF3Format ∨ fmtOut = FileType.SF3Format →
        writeComment fmtIn fmtOut comment = comment) := by
  cases fmtIn <;> cases fmtOut <;>
    simp [writeComment]

/-- Claim C8 witness: SF3 source, SF2 target appends the advisory. -/
theorem writeComment_advisory_condition_witness :
    writeComment FileType.SF3Format FileType.SF2Format "x" =
      "x" ++ lossyAdvisory :=
  (writeComment_advisory_condition FileType.SF3Format FileType.SF2Format "x").1
    rfl (by decide)

/-- Claim C10.  `checkMeta` returns true vacuously when no meta is attached;
with meta present it returns true exactly when the recorded sample count
equals `numSamples()` and the recorded loop length (unsigned 32-bit
difference) equals the sample's loop length. -/
theorem checkMeta_spec (s : Sample) :
    (s.meta = none → checkMeta s = true) ∧
    (∀ m, s.meta = some m →
      (checkMeta s = true ↔
        (m.samples = numSamples s ∧
         sub32 m.loopend m.loopstart = sub32 s.loopend s.loopstart))) := by
  constructor
  · intro h
    simp [checkMeta, h]
  · intro m hm
    simp [checkMeta, hm]

/-- Claim C10 witness: a sample whose meta matches verifies. -/
theorem checkMeta_spec_witness : checkMeta sampM = true :=
  ((checkMeta_spec sampM).2 ⟨"S", 1000, 10, 20⟩ rfl).mpr (by decide)

/-- Claim C2.  The output contains a `shdX` chunk iff the target format is
not SF2 and every sample has meta attached; if any sample lacks meta the
entire chunk is omitted. -/
theorem writeShdX_gating (fmtOut : FileType) (samples : List Sample) :
    "shdX" ∈ writePdtaChunkIds fmtOut samples ↔
      (fmtOut ≠ FileType.SF2Format ∧
        ∀ s ∈ samples, s.meta.isSome = true) := by
  unfold writePdtaChunkIds writeShdXChunkIds
  by_cases hf : fmtOut = FileType.SF2Format
  · simp [hf]
  · by_cases hall : samples.all (fun s => s.meta.isSome) = true
    · rw [List.all_eq_true] at hall
      simp [hf, hall]
    · have hallb : samples.all (fun s => s.meta.isSome) = false :=
        Bool.eq_false_iff.mpr hall
      rw [List.all_eq_true] at hall
      simp [hf, hallb]
      push_neg at hall
      obtain ⟨x, hx, hmeta⟩ := hall
      exact ⟨x, hx, Option.not_isSome_iff_eq_none.mp (by simp [hmeta])⟩

/-- Claim C2 witness: SF3 target with one meta-carrying sample gets the
chunk. -/
theorem writeShdX_gating_witness :
    "shdX" ∈ writePdtaChunkIds FileType.SF3Format [sampM] :=
  (writeShdX_gating FileType.SF3Format [sampM]).mpr
    ⟨by decide, by decide⟩

/-- `readPhdrIndices a l` succeeds exactly when `a :: l` is sorted
(non-decreasing). -/
theorem readPhdrIndices_ok_iff (l : List Nat) :
    ∀ a, readPhdrIndices a l = Except.ok () ↔ List.Chain' (· ≤ ·) (a :: l) := by
  induction l with
  | nil => intro a; simp [readPhdrIndices]
  | cons b t ih =>
      intro a
      rw [readPhdrIndices]
      by_cases hba : b < a
      · rw [if_pos hba]
        simp [List.chain'_cons]
        omega
      · rw [if_neg hba]
        rw [ih b, List.chain'_cons]
        simp
        omega

/-- When `readPhdrIndices` does not succeed, it produces exactly the
non-monotonicity error. -/
theorem readPhdrIndices_error (l : List Nat) :
    ∀ a, readPhdrIndices a l ≠ Except.ok () →
      readPhdrIndices a l = Except.error "preset header indices not monotonic" := by
  induction l with
  | nil => intro a h; exact absurd rfl h
  | cons b t ih =>
      intro a h
      rw [readPhdrIndices] at h ⊢
      by_cases hba : b < a
      · rw [if_pos hba]
      · rw [if_neg hba] at h ⊢
        exact ih b h

/-- Claim C7.  If the `phdr` bag-index sequence contains a record smaller
than its predecessor, `readPhdr` throws the monotonicity error — so `read()`
returns false and `main` exits with status 3 — and for non-decreasing
sequences the check never fires. -/
theorem readPhdr_nonmonotonic_fails (idxs : List Nat) :
    ((∃ i, i + 1 < idxs.length ∧ idxs.getD (i + 1) 0 < idxs.getD i 0) →
        readPhdr idxs = Except.error "preset header indices not monotonic" ∧
        mainExitCode (readOk (readPhdr idxs)) = 3) ∧
    (List.Chain' (· ≤ ·) idxs → readPhdr idxs = Except.ok ()) := by
  constructor
  · intro ⟨i, hi, hlt⟩
    have hnotok : readPhdr idxs ≠ Except.ok () := by
      intro hok
      have hok0 : readPhdrIndices 0 idxs = Except.ok () := hok
      have hchain : List.Chain' (· ≤ ·) idxs :=
        (List.chain'_cons'.mp ((readPhdrIndices_ok_iff idxs 0).mp hok0)).2
      rw [List.chain'_iff_get] at hchain
      have hmono := hchain i (by omega)
      have hb1 : i + 1 < idxs.length := hi
      have hb0 : i < idxs.length := by omega
      rw [List.getD_eq_getElem idxs 0 hb1, List.getD_eq_getElem idxs 0 hb0] at hlt
      simp only [List.get_eq_getElem] at hmono
      omega
    have herr := readPhdrIndices_error idxs 0 hnotok
    refine ⟨herr, ?_⟩
    unfold readPhdr
    rw [herr]
    rfl
  · intro hchain
    exact (readPhdrIndices_ok_iff idxs 0).mpr
      (List.chain'_cons'.mpr ⟨fun b _ => Nat.zero_le b, hchain⟩)

/-- Claim C7 witness: the decreasing sequence `[3, 1]` fails with exit
status 3. -/
theorem readPhdr_nonmonotonic_fails_witness :
    readPhdr [3, 1] = Except.error "preset header indices not monotonic" ∧
    mainExitCode (readOk (readPhdr [3, 1])) = 3 :=
  (readPhdr_nonmonotonic_fails [3, 1]).1 ⟨0, by decide, by decide⟩

/-- Bits of the 32-bit complement mask `~(TypeVorbis + TypeFlac)`: every bit
below 32 except bits 4 and 5. -/
theorem compressionClearMask_testBit_lt :
    ∀ k, k < 32 → compressionClearMask.testBit k =
      (decide (k ≠ 4) && decide (k ≠ 5)) := by
  decide

theorem compressionClearMask_testBit_ge (k : Nat) (h : 32 ≤ k) :
    compressionClearMask.testBit k = false :=
  Nat.testBit_eq_false_of_lt
    (lt_of_lt_of_le (by norm_num [compressionClearMask])
      (Nat.pow_le_pow_right (by norm_num) h))

/-- Claim C9.  `setCompressionType c` leaves every bit of `sampletype` other
than bit 4 (`TypeVorbis` = 16) and bit 5 (`TypeFlac` = 32) unchanged, and
afterwards bit 4 is set iff `c = Vorbis` and bit 5 is set iff `c = Flac` —
in particular at most one compression bit is set. -/
theorem setCompressionType_frame (c : SampleCompression) (n : Nat)
    (hn : n < 4294967296) :
    (∀ k, k ≠ 4 → k ≠ 5 →
        (setCompressionType c n).testBit k = n.testBit k) ∧
    ((setCompressionType c n).testBit 4 = true ↔ c = SampleCompression.Vorbis) ∧
    ((setCompressionType c n).testBit 5 = true ↔ c = SampleCompression.Flac) := by
  have h16 : (16 : Nat) = 2 ^ 4 := by norm_num
  have h32 : (32 : Nat) = 2 ^ 5 := by norm_num
  refine ⟨?_, ?_, ?_⟩
  · intro k h4 h5
    rcases Nat.lt_or_ge k 32 with hk | hk
    · have hmask := compressionClearMask_testBit_lt k hk
      simp only [h4, h5, decide_not, decide_True, decide_False, Bool.not_false,
        Bool.and_self] at hmask
      cases c <;>
        simp [setCompressionType, Nat.testBit_lor, Nat.testBit_land, hmask,
          h16, h32, Nat.testBit_two_pow_of_ne (by omega : 4 ≠ k),
          Nat.testBit_two_pow_of_ne (by omega : 5 ≠ k)]
    · have hmask := compressionClearMask_testBit_ge k hk
      have hnk : n.testBit k = false :=
        Nat.testBit_eq_false_of_lt
          (lt_of_lt_of_le hn
            (le_trans (by norm_num : (4294967296 : ℕ) ≤ 2 ^ 32)
              (Nat.pow_le_pow_right (by norm_num) hk)))
      cases c <;>
        simp [setCompressionType, Nat.testBit_lor, Nat.testBit_land, hmask,
          hnk, h16, h32, Nat.testBit_two_pow_of_ne (by omega : 4 ≠ k),
          Nat.testBit_two_pow_of_ne (by omega : 5 ≠ k)]
  · have hm4 : compressionClearMask.testBit 4 = false := by decide
    have ht4 : Nat.testBit 16 4 = true := by decide
    have ht4f : Nat.testBit 32 4 = false := by decide
    cases c <;>
      simp [setCompressionType, Nat.testBit_lor, Nat.testBit_land, hm4, ht4,
        ht4f]
  · have hm5 : compressionClearMask.testBit 5 = false := by decide
    have ht5 : Nat.testBit 32 5 = true := by decide
    have ht5f : Nat.testBit 16 5 = false := by decide
    cases c <;>
      simp [setCompressionType, Nat.testBit_lor, Nat.testBit_land, hm5, ht5,
        ht5f]

theorem smplStep_snd (fmt : FileType) (encV encF : Sample → Nat)
    (offset : Nat) (s : Sample) :
    (smplStep fmt encV encF offset s).2 =
      offset + bytesWritten fmt encV encF s := by
  cases fmt <;> rfl

theorem writeSmplSamples_length (fmt : FileType) (encV encF : Sample → Nat) :
    ∀ (l : List Sample) (offset : Nat),
      (writeSmplSamples fmt encV encF offset l).length = l.length := by
  intro l
  induction l with
  | nil => intro offset; rfl
  | cons s rest ih =>
      intro offset
      simp [writeSmplSamples, ih]

theorem offsetBefore_succ (fmt : FileType) (encV encF : Sample → Nat) :
    ∀ (l : List Sample) (i : Nat), i < l.length →
      offsetBefore fmt encV encF l (i + 1) =
        offsetBefore fmt encV encF l i +
          bytesWritten fmt encV encF (l.getD i emptySample) := by
  intro l
  induction l with
  | nil => intro i hi; simp at hi
  | cons s rest ih =>
      intro i hi
      cases i with
      | zero => simp [offsetBefore]
      | succ j =>
          have hj : j < rest.length := by simpa using hi
          simp only [offsetBefore, List.getD_cons_succ]
          rw [ih j hj]
          omega

theorem writeSmplSamples_getD (fmt : FileType) (encV encF : Sample → Nat) :
    ∀ (l : List Sample) (offset i : Nat), i < l.length →
      (writeSmplSamples fmt encV encF offset l).getD i emptySample =
        (smplStep fmt encV encF
          (offset + offsetBefore fmt encV encF l i)
          (l.getD i emptySample)).1 := by
  intro l
  induction l with
  | nil => intro offset i hi; simp at hi
  | cons s rest ih =>
      intro offset i hi
      cases i with
      | zero =>
          simp [writeSmplSamples, offsetBefore]
      | succ j =>
          have hj : j < rest.length := by simpa using hi
          simp only [writeSmplSamples, List.getD_cons_succ, offsetBefore]
          rw [ih (smplStep fmt encV encF offset s).2 j hj, smplStep_snd,
            Nat.add_assoc]

theorem writeShdr_getD :
    ∀ (l : List Sample) (i : Nat), i < l.length →
      (writeShdr l).getD i (writeShdrEach emptySample) =
        writeShdrEach (l.getD i emptySample) := by
  intro l
  induction l with
  | nil => intro i hi; simp at hi
  | cons s rest ih =>
      intro i hi
      cases i with
      | zero => rfl
      | succ j =>
          have hj : j < rest.length := by simpa using hi
          simpa [writeShdr, List.getD_cons_succ] using ih j hj

theorem smplStep_sf2_fst (encV encF : Sample → Nat) (offset : Nat)
    (s : Sample) :
    (smplStep FileType.SF2Format encV encF offset s).1 =
      { s with
        sampletype := setCompressionType SampleCompression.Raw s.sampletype,
        start := offset / 2 % 4294967296,
        end_ := (offset + writeSampleDataPlain s) / 2 % 4294967296,
        loopstart := (s.loopstart + offset / 2 % 4294967296) % 4294967296,
        loopend := (s.loopend + offset / 2 % 4294967296) % 4294967296 } := rfl

theorem smplStep_sf3_fst (encV encF : Sample → Nat) (offset : Nat)
    (s : Sample) :
    (smplStep FileType.SF3Format encV encF offset s).1 =
      { s with
        sampletype := setCompressionType SampleCompression.Vorbis s.sampletype,
        start := offset % 4294967296,
        end_ := (offset + encV s) % 4294967296 } := rfl

theorem smplStep_sf4_fst (encV encF : Sample → Nat) (offset : Nat)
    (s : Sample) :
    (smplStep FileType.SF4Format encV encF offset s).1 =
      { s with
        sampletype := setCompressionType SampleCompression.Flac s.sampletype,
        start := offset % 4294967296,
        end_ := (offset + encF s) % 4294967296 } := rfl

/-- Claim C1.  As `writeSmpl` emits the payload it rewrites each sample's
offset fields in memory, in model order: for an SF2 target, `start` becomes
the running byte offset divided by 2, `end` becomes (offset + written bytes)
divided by 2, and `loopstart`/`loopend` each have the new `start` added to
them; for SF3/SF4 targets, `start` becomes the running byte offset, `end`
becomes offset + written bytes, and the loop fields are left unchanged.  The
`shdr` chunk written afterwards carries exactly the rewritten values. -/
theorem writeSmpl_offset_rewrite (fmt : FileType) (encV encF : Sample → Nat)
    (samples : List Sample) (i : Nat) (hi : i < samples.length)
    (hoff : offsetBefore fmt encV encF samples (i + 1) < 4294967296)
    (hls : (samples.getD i emptySample).loopstart +
        offsetBefore fmt encV encF samples i / 2 < 4294967296)
    (hle : (samples.getD i emptySample).loopend +
        offsetBefore fmt encV encF samples i / 2 < 4294967296) :
    ((fmt = FileType.SF2Format →
        (rewrittenSample fmt encV encF samples i).start =
          offsetBefore fmt encV encF samples i / 2 ∧
        (rewrittenSample fmt encV encF samples i).end_ =
          (offsetBefore fmt encV encF samples i +
            bytesWritten fmt encV encF (samples.getD i emptySample)) / 2 ∧
        (rewrittenSample fmt encV encF samples i).loopstart =
          (samples.getD i emptySample).loopstart +
            (rewrittenSample fmt encV encF samples i).start ∧
        (rewrittenSample fmt encV encF samples i).loopend =
          (samples.getD i emptySample).loopend +
            (rewrittenSample fmt encV encF samples i).start) ∧
     (fmt ≠ FileType.SF2Format →
        (rewrittenSample fmt encV encF samples i).start =
          offsetBefore fmt encV encF samples i ∧
        (rewrittenSample fmt encV encF samples i).end_ =
          offsetBefore fmt encV encF samples i +
            bytesWritten fmt encV encF (samples.getD i emptySample) ∧
        (rewrittenSample fmt encV encF samples i).loopstart =
          (samples.getD i emptySample).loopstart ∧
        (rewrittenSample fmt encV encF samples i).loopend =
          (samples.getD i emptySample).loopend)) ∧
    ((shdrRecordAt fmt encV encF samples i).start =
        (rewrittenSample fmt encV encF samples i).start ∧
     (shdrRecordAt fmt encV encF samples i).end_ =
        (rewrittenSample fmt encV encF samples i).end_ ∧
     (shdrRecordAt fmt encV encF samples i).loopstart =
        (rewrittenSample fmt encV encF samples i).loopstart ∧
     (shdrRecordAt fmt encV encF samples i).loopend =
        (rewrittenSample fmt encV encF samples i).loopend) := by
  have hgd := writeSmplSamples_getD fmt encV encF samples 0 i hi
  rw [Nat.zero_add] at hgd
  have hrw : rewrittenSample fmt encV encF samples i =
      (smplStep fmt encV encF (offsetBefore fmt encV encF samples i)
        (samples.getD i emptySample)).1 := hgd
  have hsucc := offsetBefore_succ fmt encV encF samples i hi
  rw [hsucc] at hoff
  have hshdr : shdrRecordAt fmt encV encF samples i =
      writeShdrEach (rewrittenSample fmt encV encF samples i) := by
    unfold shdrRecordAt rewrittenSample
    exact writeShdr_getD _ i (by rw [writeSmplSamples_length]; exact hi)
  set s := samples.getD i emptySample with hs
  set off := offsetBefore fmt encV encF samples i with hoffd
  set w := bytesWritten fmt encV encF s with hwd
  cases fmt with
  | SF2Format =>
      have hw2 : w = writeSampleDataPlain s := hwd
      rw [hshdr, hrw, smplStep_sf2_fst, ← hw2]
      refine ⟨⟨fun _ => ⟨?_, ?_, ?_, ?_⟩, fun hne => absurd rfl hne⟩,
        ?_, ?_, ?_, ?_⟩ <;>
        simp [writeShdrEach] <;> omega
  | SF3Format =>
      have hw3 : w = encV s := hwd
      rw [hshdr, hrw, smplStep_sf3_fst, ← hw3]
      refine ⟨⟨fun h => absurd h (by decide), fun _ => ⟨?_, ?_, ?_, ?_⟩⟩,
        ?_, ?_, ?_, ?_⟩ <;>
        simp [writeShdrEach] <;> omega
  | SF4Format =>
      have hw4 : w = encF s := hwd
      rw [hshdr, hrw, smplStep_sf4_fst, ← hw4]
      refine ⟨⟨fun h => absurd h (by decide), fun _ => ⟨?_, ?_, ?_, ?_⟩⟩,
        ?_, ?_, ?_, ?_⟩ <;>
        simp [writeShdrEach] <;> omega

/-- Claim C1 witness: one sample, SF3 target, an encoder that writes 6
bytes. -/
theorem writeSmpl_offset_rewrite_witness :
    (rewrittenSample FileType.SF3Format encW encW [sampW] 0).start = 0 ∧
    (rewrittenSample FileType.SF3Format encW encW [sampW] 0).end_ = 6 ∧
    (rewrittenSample FileType.SF3Format encW encW [sampW] 0).loopstart = 7 ∧
    (shdrRecordAt FileType.SF3Format encW encW [sampW] 0).end_ = 6 := by
  have h := writeSmpl_offset_rewrite FileType.SF3Format encW encW [sampW] 0
    (by decide) (by decide) (by decide) (by decide)
  have h2 := h.1.2 (by decide)
  refine ⟨?_, ?_, ?_, ?_⟩
  · rw [h2.1]; rfl
  · rw [h2.2.1]; rfl
  · rw [h2.2.2.1]; rfl
  · rw [h.2.2.1, h2.2.1]; rfl

/-- Claim C9 witness: on `sampletype = 0x8001` (Mono + Rom), selecting Vorbis
keeps the Rom bit and sets bit 4. -/
theorem setCompressionType_frame_witness :
    (setCompressionType SampleCompression.Vorbis 32769).testBit 15 =
      Nat.testBit 32769 15 ∧
    (setCompressionType SampleCompression.Vorbis 32769).testBit 4 = true :=
  ⟨(setCompressionType_frame SampleCompression.Vorbis 32769 (by decide)).1 15
      (by decide) (by decide),
   (setCompressionType_frame SampleCompression.Vorbis 32769
      (by decide)).2.1.mpr rfl⟩

end SF2
